import Mathlib

/-!
Verification of the btwiuse/dash control plane (route package) and the
inbound metadata constructors, by a shallow embedding of the Go source
into Lean 4.  The embedded functions follow the source at
`route` (part_000), `adapter/inbound/http.go`, `adapter/inbound/socket.go`.
-/

namespace Dash

/-- A JSON error body of the shape produced by the route package's
render.JSON calls: a single `message` field. -/
structure ErrorMessage where
  message : String
  deriving DecidableEq, Repr

/-- Modelled from the spec: the route package's `ErrUnauthorized` value
(route errors file, not present in src) renders as
`401` with body `\x7bmessage: "Unauthorized"\x7d`. -/
def ErrUnauthorized : ErrorMessage := ⟨"Unauthorized"⟩

/-- Modelled from the spec: the route package's `ErrBadRequest` value
(route errors file, not present in src); the spec fixes only the shape:
a JSON `\x7bmessage\x7d` body with a 4xx status.  The message text is not
specified, so a placeholder text is used; no theorem depends on it. -/
def ErrBadRequest : ErrorMessage := ⟨"Body invalid"⟩

/-- Outcome of the `authentication` middleware for one request: either the
request is forwarded to the wrapped handler, or it is rejected with an HTTP
status and a JSON error body and the handler never runs. -/
inductive ControlDecision
  | forwarded
  | reject (status : Nat) (body : ErrorMessage)
  deriving DecidableEq, Repr

/-- `strings.Cut(s, " ")` restricted to the single-character separator used
by the source: split a character list at the first space.  Returns
(before, after, found) exactly as Go's `strings.Cut`. -/
def cutSpace : List Char → List Char × List Char × Bool
  | [] => ([], [], false)
  | c :: cs =>
    if c = ' ' then ([], cs, true)
    else
      let r := cutSpace cs
      (c :: r.1, r.2.1, r.2.2)

/-- `strings.Cut(s, " ")` on Lean strings, via `cutSpace` on the underlying
character list. -/
def stringCutSpace (s : String) : String × String × Bool :=
  let r := cutSpace s.data
  (⟨r.1⟩, ⟨r.2.1⟩, r.2.2)

/-- The `authentication` middleware (part_000 lines 100-132), as a pure
function of the configured secret and the request's observable inputs:
whether the request is a WebSocket upgrade, its `token` query parameter
(empty string when absent, as Go's `Query().Get`), and its `Authorization`
header (empty string when absent). -/
def authentication (secret : String) (isWSUpgrade : Bool)
    (tokenQuery : String) (authHeader : String) : ControlDecision :=
  if secret = "" then .forwarded
  else if isWSUpgrade = true ∧ tokenQuery ≠ "" then
    if tokenQuery ≠ secret then .reject 401 ErrUnauthorized
    else .forwarded
  else
    let c := stringCutSpace authHeader
    let hasInvalidHeader : Bool := c.1 != "Bearer"
    let hasInvalidSecret : Bool := !c.2.2 || (c.2.1 != secret)
    if hasInvalidHeader || hasInvalidSecret then .reject 401 ErrUnauthorized
    else .forwarded

theorem cutSpace_of_no_space (b : List Char) (hb : ' ' ∉ b) (a : List Char) :
    cutSpace (b ++ ' ' :: a) = (b, a, true) := by
  induction b with
  | nil => simp [cutSpace]
  | cons c cs ih =>
    have hc : c ≠ ' ' := fun h => hb (h ▸ List.mem_cons_self c cs)
    have hcs : ' ' ∉ cs := fun h => hb (List.mem_cons_of_mem c h)
    simp [cutSpace, hc, ih hcs]

theorem cutSpace_found (l : List Char) (b a : List Char)
    (h : cutSpace l = (b, a, true)) : l = b ++ ' ' :: a := by
  induction l generalizing b a with
  | nil => simp [cutSpace] at h
  | cons c cs ih =>
    by_cases hc : c = ' '
    · subst hc
      simp [cutSpace] at h
      simp [h.1.symm, h.2.symm]
    · simp only [cutSpace, if_neg hc, Prod.mk.injEq] at h
      obtain ⟨hb, ha, hf⟩ := h
      have hcs : cutSpace cs = ((cutSpace cs).1, a, true) := by
        rw [← ha, ← hf]
      have h2 := ih (cutSpace cs).1 a hcs
      rw [← hb]
      exact congrArg (List.cons c) h2

theorem cutSpace_bearer (a : List Char) :
    cutSpace ('B' :: 'e' :: 'a' :: 'r' :: 'e' :: 'r' :: ' ' :: a) =
      (['B', 'e', 'a', 'r', 'e', 'r'], a, true) :=
  cutSpace_of_no_space ['B', 'e', 'a', 'r', 'e', 'r'] (by decide) a

/-- The header branch of the middleware admits exactly the header
`"Bearer " ++ secret`. -/
theorem stringCutSpace_bearer_iff (secret hdr : String) :
    ((stringCutSpace hdr).1 = "Bearer" ∧ (stringCutSpace hdr).2.2 = true ∧
      (stringCutSpace hdr).2.1 = secret) ↔ hdr = "Bearer " ++ secret := by
  constructor
  · rintro ⟨h1, h2, h3⟩
    have hcut : cutSpace hdr.data =
        ((cutSpace hdr.data).1, (cutSpace hdr.data).2.1, (cutSpace hdr.data).2.2) := rfl
    have hb : (cutSpace hdr.data).1 = "Bearer".data := by
      have := congrArg String.data h1
      simpa [stringCutSpace] using this
    have ha : (cutSpace hdr.data).2.1 = secret.data := by
      have := congrArg String.data h3
      simpa [stringCutSpace] using this
    have hf : (cutSpace hdr.data).2.2 = true := by
      simpa [stringCutSpace] using h2
    have hdata : hdr.data = "Bearer".data ++ ' ' :: secret.data :=
      cutSpace_found hdr.data "Bearer".data secret.data
        (by rw [hcut, hb, ha, hf])
    exact String.ext (by simpa using hdata)
  · rintro rfl
    have hdata : ("Bearer " ++ secret).data =
        'B' :: 'e' :: 'a' :: 'r' :: 'e' :: 'r' :: ' ' :: secret.data := by
      simp
    refine ⟨?_, ?_, ?_⟩ <;>
      simp [stringCutSpace, hdata, cutSpace_bearer]

/-- C1 (amended): with a non-empty secret, a WebSocket upgrade request
carrying a non-empty `token` query parameter is decided by that token alone
(admitted iff it equals the secret, rejected 401 Unauthorized otherwise,
even when the `Authorization` header is `Bearer <secret>`); every other
request is admitted iff its `Authorization` header is exactly
`"Bearer " ++ secret`; every rejection is status 401 with JSON body
message "Unauthorized" and the handler does not run. -/
theorem authentication_characterization (secret : String) (hs : secret ≠ "")
    (isWS : Bool) (tok hdr : String) :
    authentication secret isWS tok hdr =
      if isWS = true ∧ tok ≠ "" then
        (if tok = secret then ControlDecision.forwarded
         else ControlDecision.reject 401 ErrUnauthorized)
      else if hdr = "Bearer " ++ secret then ControlDecision.forwarded
      else ControlDecision.reject 401 ErrUnauthorized := by
  unfold authentication
  rw [if_neg hs]
  by_cases hws : isWS = true ∧ tok ≠ ""
  · rw [if_pos hws, if_pos hws]
    by_cases ht : tok = secret
    · rw [if_neg (not_not_intro ht), if_pos ht]
    · rw [if_pos ht, if_neg ht]
  · rw [if_neg hws, if_neg hws]
    by_cases hh : hdr = "Bearer " ++ secret
    · obtain ⟨h1, h2, h3⟩ := (stringCutSpace_bearer_iff secret hdr).mpr hh
      rw [if_pos hh]
      simp [h1, h2, h3]
    · rw [if_neg hh]
      have hnc : ¬((stringCutSpace hdr).1 = "Bearer" ∧
          (stringCutSpace hdr).2.2 = true ∧ (stringCutSpace hdr).2.1 = secret) :=
        fun hc => hh ((stringCutSpace_bearer_iff secret hdr).mp hc)
      by_cases hA : (stringCutSpace hdr).1 = "Bearer"
      · by_cases hB : (stringCutSpace hdr).2.2 = true
        · have hC : (stringCutSpace hdr).2.1 ≠ secret := fun hC => hnc ⟨hA, hB, hC⟩
          simp [hA, hB, hC]
        · simp [hA, hB]
      · simp [hA]

/-- Witness for the amended C1 theorem at a concrete input: secret "s",
a plain (non-upgrade) request with header "Bearer s" is forwarded. -/
theorem authentication_characterization_witness :
    authentication "s" false "" "Bearer s" = ControlDecision.forwarded := by
  rw [authentication_characterization "s" (by decide) false "" "Bearer s"]
  decide

/-- C1 counterexample: with secret "s", a WebSocket upgrade request whose
`Authorization` header is exactly `Bearer s` (so the claim admits it) but
whose `token` query parameter is the non-empty wrong value "x" is rejected
with 401 by the code, not forwarded to the handler. -/
theorem authentication_claim_counterexample :
    "Bearer s" = "Bearer " ++ "s" ∧
    authentication "s" true "x" "Bearer s" =
      ControlDecision.reject 401 ErrUnauthorized ∧
    authentication "s" true "x" "Bearer s" ≠ ControlDecision.forwarded := by
  refine ⟨by decide, by decide, by decide⟩

/-- C4: with the empty configured secret, the authentication middleware
forwards every request to its handler, whatever the upgrade status, token
query parameter and Authorization header are. -/
theorem authentication_empty_secret_disables (isWS : Bool) (tok hdr : String) :
    authentication "" isWS tok hdr = ControlDecision.forwarded := by
  simp [authentication]

/-- Modelled from the spec: the log package's `LogLevel` (log package, not
in src): `level ∈ \x7bDebug, Info, Warn, Error, Silent\x7d`, ordered from most
to least verbose. -/
inductive LogLevel
  | debug
  | info
  | warn
  | error
  | silent
  deriving DecidableEq, Repr

/-- Numeric rank of a log level, Debug lowest.  The Go source compares
levels with `<` on this order. -/
def levelToNat : LogLevel → Nat
  | .debug => 0
  | .info => 1
  | .warn => 2
  | .error => 3
  | .silent => 4

/-- Modelled from the spec: the log package's name for each level, as used
for the `type` field of a streamed log object. -/
def levelName : LogLevel → String
  | .debug => "debug"
  | .info => "info"
  | .warn => "warn"
  | .error => "error"
  | .silent => "silent"

/-- Modelled from the spec: the log package's `LogLevelMapping` (not in
src), mapping the textual `level` query value to a level; unknown names
have no mapping. -/
def LogLevelMapping : String → Option LogLevel
  | "debug" => some .debug
  | "info" => some .info
  | "warn" => some .warn
  | "error" => some .error
  | "silent" => some .silent
  | _ => none

/-- Modelled from the spec: a log event (log package, not in src) carries a
level and a payload string; its `Type()` is the level's name. -/
structure Event where
  logLevel : LogLevel
  Payload : String
  deriving DecidableEq, Repr

/-- The JSON object streamed by `getLogs`: the Go struct `Log` with fields
`Type` and `Payload` (part_000 lines 177-180), serialized as `type` and
`payload`.  The Go field `Type` is rendered here as `logType` because
`Type` is reserved in Lean. -/
structure LogJSON where
  logType : String
  Payload : String
  deriving DecidableEq, Repr

/-- Encoding of one event as the streamed `\x7btype, payload\x7d` object
(part_000 lines 231-234). -/
def encodeLog (e : Event) : LogJSON :=
  { logType := levelName e.logLevel, Payload := e.Payload }

/-- Capacity of the per-request relay channel `ch` in `getLogs`
(part_000 line 209: `make(chan log.Event, 1024)`). -/
def logChanCapacity : Nat := 1024

/-- One publication step of the relay goroutine in `getLogs` (part_000
lines 214-223): `select \x7bcase ch <- log: default:\x7d` enqueues the new
event when the queue holds fewer than `logChanCapacity` events and
otherwise leaves the queue unchanged (the new event is dropped); the
publisher never blocks. -/
def relayPublish (q : List Event) (e : Event) : List Event :=
  if q.length < logChanCapacity then q ++ [e] else q

/-- The pure content of the `getLogs` handler (part_000 lines 182-250):
from the `level` query value and the sequence of events delivered to the
subscription, either a 400 error (unknown level name) or the ordered list
of streamed objects.  The filter `log.LogLevel < level → continue` keeps
exactly the events whose level is not below the requested one. -/
def getLogsPure (levelText : String) (events : List Event) :
    Except (Nat × ErrorMessage) (List LogJSON) :=
  let lt := if levelText = "" then "info" else levelText
  match LogLevelMapping lt with
  | none => .error (400, ErrBadRequest)
  | some level =>
      .ok (((events.filter
        (fun e => !decide (levelToNat e.logLevel < levelToNat level))).map
          encodeLog))

theorem filter_not_lt_eq_filter_le (lvl : LogLevel) (events : List Event) :
    events.filter
        (fun e => !decide (levelToNat e.logLevel < levelToNat lvl)) =
      events.filter
        (fun e => decide (levelToNat lvl ≤ levelToNat e.logLevel)) := by
  apply List.filter_congr
  intro e _
  rw [show (!decide (levelToNat e.logLevel < levelToNat lvl)) =
        decide (¬ levelToNat e.logLevel < levelToNat lvl) from decide_not.symm]
  exact decide_eq_decide.mpr Nat.not_lt

/-- C2 (amended): the per-subscriber relay queue in `getLogs` is bounded by
capacity 1024 and publication never blocks; when the queue is full, the NEW
event is dropped and the queue (including its oldest event) is left
unchanged; when it is not full, the new event is appended. -/
theorem relayPublish_bounded (q : List Event) (e : Event)
    (h : q.length ≤ logChanCapacity) :
    (relayPublish q e).length ≤ logChanCapacity ∧
    (q.length = logChanCapacity → relayPublish q e = q) ∧
    (q.length < logChanCapacity → relayPublish q e = q ++ [e]) := by
  unfold relayPublish
  refine ⟨?_, ?_, ?_⟩
  · by_cases hlt : q.length < logChanCapacity
    · simp only [if_pos hlt, List.length_append, List.length_singleton]
      omega
    · simp only [if_neg hlt]
      exact h
  · intro hfull
    rw [if_neg (by omega)]
  · intro hlt
    rw [if_pos hlt]

/-- Witness for the amended C2 theorem at a concrete input: the empty
queue (length 0 ≤ 1024) accepts a published event by appending it. -/
theorem relayPublish_bounded_witness :
    ([] : List Event).length ≤ logChanCapacity ∧
    ((relayPublish [] ⟨.info, "a"⟩).length ≤ logChanCapacity ∧
      (([] : List Event).length = logChanCapacity →
        relayPublish [] ⟨.info, "a"⟩ = []) ∧
      (([] : List Event).length < logChanCapacity →
        relayPublish [] ⟨.info, "a"⟩ = [] ++ [⟨.info, "a"⟩])) :=
  ⟨by decide, relayPublish_bounded [] ⟨.info, "a"⟩ (by decide)⟩

/-- C2 counterexample: on a full queue of 1024 copies of event a,
publishing event b leaves the queue unchanged (the new event is dropped),
which differs from the claimed drop-oldest result
`q.drop 1 ++ [b]`. -/
theorem relayPublish_drop_oldest_counterexample :
    relayPublish (List.replicate 1024 (⟨.info, "a"⟩ : Event)) ⟨.info, "b"⟩ =
      List.replicate 1024 (⟨.info, "a"⟩ : Event) ∧
    List.replicate 1024 (⟨.info, "a"⟩ : Event) ≠
      (List.replicate 1024 (⟨.info, "a"⟩ : Event)).drop 1 ++
        [(⟨.info, "b"⟩ : Event)] := by
  constructor
  · unfold relayPublish logChanCapacity
    rw [List.length_replicate]
    rw [if_neg (by omega)]
  · intro hEq
    have h1 : (List.replicate 1024 (⟨.info, "a"⟩ : Event)).getLast? =
        some ⟨.info, "a"⟩ := by
      rw [show (1024 : Nat) = 1023 + 1 from rfl, List.replicate_succ']
      exact List.getLast?_concat _
    have h2 : ((List.replicate 1024 (⟨.info, "a"⟩ : Event)).drop 1 ++
        [(⟨.info, "b"⟩ : Event)]).getLast? = some ⟨.info, "b"⟩ :=
      List.getLast?_concat _
    rw [← hEq, h1] at h2
    exact absurd h2 (by decide)

/-- C3: a GET /logs request whose non-empty `level` query value names an
unknown log level is answered 400 with a JSON message body and nothing is
streamed; a known level name streams, in order, exactly the delivered
events whose level is at or above the requested level, each encoded as the
object with `type` and `payload` fields. -/
theorem getLogs_level_filter (levelText : String) (events : List Event) :
    (levelText ≠ "" → LogLevelMapping levelText = none →
      getLogsPure levelText events = .error (400, ErrBadRequest)) ∧
    (∀ lvl, LogLevelMapping levelText = some lvl →
      getLogsPure levelText events =
        .ok ((events.filter
          (fun e => decide (levelToNat lvl ≤ levelToNat e.logLevel))).map
            encodeLog)) := by
  constructor
  · intro h1 h2
    simp [getLogsPure, if_neg h1, h2]
  · intro lvl hl
    have hne : levelText ≠ "" := by
      intro h
      rw [h] at hl
      simp [LogLevelMapping] at hl
    simp only [getLogsPure, if_neg hne, hl, filter_not_lt_eq_filter_le]

/-- Witness for C3 at concrete inputs: level "bogus" yields the 400 error;
level "error" streams exactly the error-or-above events. -/
theorem getLogs_level_filter_witness :
    (("bogus" : String) ≠ "" ∧ LogLevelMapping "bogus" = none ∧
      getLogsPure "bogus" [⟨.debug, "m"⟩] = .error (400, ErrBadRequest)) ∧
    (LogLevelMapping "error" = some .error ∧
      getLogsPure "error" [⟨.debug, "m"⟩, ⟨.error, "n"⟩] =
        .ok [⟨"error", "n"⟩]) := by
  constructor
  · refine ⟨by decide, rfl, ?_⟩
    exact (getLogs_level_filter "bogus" [⟨.debug, "m"⟩]).1 (by decide) rfl
  · refine ⟨rfl, ?_⟩
    rw [(getLogs_level_filter "error" [⟨.debug, "m"⟩, ⟨.error, "n"⟩]).2
      .error rfl]
    rfl

/-- C10: a GET /logs request with an absent or empty `level` query value is
handled exactly as `level=info`: the stream filters out events strictly
below Info. -/
theorem getLogs_empty_level_defaults_info (events : List Event) :
    getLogsPure "" events = getLogsPure "info" events ∧
    getLogsPure "" events =
      .ok ((events.filter
        (fun e => decide (levelToNat .info ≤ levelToNat e.logLevel))).map
          encodeLog) := by
  refine ⟨rfl, ?_⟩
  simp only [getLogsPure, filter_not_lt_eq_filter_le]
  rfl

/-- The JSON object streamed by `traffic`: the Go struct `Traffic` with
int64 fields serialized as `up` and `down` (part_000 lines 37-40). -/
structure Traffic where
  Up : Int
  Down : Int
  deriving DecidableEq, Repr

/-- The tick interval of the `traffic` loop, in seconds (part_000
line 149: `time.NewTicker(time.Second)`). -/
def trafficTickSeconds : Nat := 1

/-- The `traffic` streaming loop (part_000 lines 149-174), one list entry
per tick: the statistic manager's reading `t.Now()` at that tick paired
with whether the write of the encoded object succeeds.  Encoding a
`Traffic` value cannot fail; the loop stops at the first failed write, and
the returned list is the sequence of successfully emitted objects. -/
def trafficLoop : List ((Int × Int) × Bool) → List Traffic
  | [] => []
  | (reading, ok) :: rest =>
      if ok then ⟨reading.1, reading.2⟩ :: trafficLoop rest else []

/-- How a streaming response is framed, decided by upgrade negotiation. -/
inductive StreamMode
  | websocketText
  | chunkedJSON
  deriving DecidableEq, Repr

/-- A streaming response: framing mode, the Content-Type header set on the
plain-HTTP path (none on the WebSocket path), whether the writer is
flushed after each object, and the emitted objects. -/
structure StreamResponse (α : Type) where
  mode : StreamMode
  contentType : Option String
  flushAfterEachObject : Bool
  messages : List α

/-- The `traffic` handler (part_000 lines 134-175): WebSocket upgrade
requests get the loop's objects as WebSocket text messages; all other
requests get a chunked JSON stream, Content-Type application/json, flushed
after each object. -/
def trafficHandler (isWSUpgrade : Bool)
    (ticks : List ((Int × Int) × Bool)) : StreamResponse Traffic :=
  if isWSUpgrade then
    { mode := .websocketText, contentType := none,
      flushAfterEachObject := false, messages := trafficLoop ticks }
  else
    { mode := .chunkedJSON, contentType := some "application/json",
      flushAfterEachObject := true, messages := trafficLoop ticks }

/-- The `getLogs` handler with upgrade negotiation (part_000 lines
182-250): the level check precedes negotiation, so an unknown level is a
400 error with no stream in either mode; otherwise the framing is chosen
exactly as in `traffic`. -/
def getLogsHandler (isWSUpgrade : Bool) (levelText : String)
    (events : List Event) :
    Except (Nat × ErrorMessage) (StreamResponse LogJSON) :=
  match getLogsPure levelText events with
  | .error e => .error e
  | .ok msgs =>
      if isWSUpgrade then
        .ok { mode := .websocketText, contentType := none,
              flushAfterEachObject := false, messages := msgs }
      else
        .ok { mode := .chunkedJSON, contentType := some "application/json",
              flushAfterEachObject := true, messages := msgs }

/-- C5: the traffic handler emits, once per tick of the 1-second ticker,
one object holding the statistic manager's current reading, and stops at
the first failed write: its output is the readings of the longest prefix
of ticks whose writes succeed, in order. -/
theorem trafficLoop_emits_per_tick (ticks : List ((Int × Int) × Bool)) :
    trafficLoop ticks =
      (ticks.takeWhile (fun t => t.2)).map (fun t => ⟨t.1.1, t.1.2⟩) ∧
    trafficTickSeconds = 1 := by
  refine ⟨?_, rfl⟩
  induction ticks with
  | nil => rfl
  | cons t rest ih =>
    obtain ⟨reading, ok⟩ := t
    cases ok with
    | true => simp [trafficLoop, List.takeWhile, ih]
    | false => simp [trafficLoop, List.takeWhile]

/-- C6: for both streaming endpoints, the framing is decided by upgrade
negotiation: a WebSocket upgrade streams WebSocket text messages, any
other request streams chunked JSON with Content-Type application/json and
a flush after each object. -/
theorem stream_mode_negotiation (isWS : Bool)
    (ticks : List ((Int × Int) × Bool)) (levelText : String)
    (events : List Event) :
    ((trafficHandler isWS ticks).mode =
        (if isWS then .websocketText else .chunkedJSON)) ∧
    ((trafficHandler isWS ticks).mode = .chunkedJSON →
      (trafficHandler isWS ticks).contentType = some "application/json" ∧
      (trafficHandler isWS ticks).flushAfterEachObject = true) ∧
    (∀ resp, getLogsHandler isWS levelText events = .ok resp →
      (resp.mode = (if isWS then .websocketText else .chunkedJSON)) ∧
      (resp.mode = .chunkedJSON →
        resp.contentType = some "application/json" ∧
        resp.flushAfterEachObject = true)) := by
  refine ⟨?_, ?_, ?_⟩
  · cases isWS <;> rfl
  · intro hmode
    cases isWS with
    | true => simp [trafficHandler] at hmode
    | false => exact ⟨rfl, rfl⟩
  · intro resp hresp
    unfold getLogsHandler at hresp
    cases hpure : getLogsPure levelText events with
    | error e => rw [hpure] at hresp; exact absurd hresp (by simp)
    | ok msgs =>
      rw [hpure] at hresp
      cases isWS with
      | true =>
        simp only [if_pos rfl] at hresp
        cases hresp
        refine ⟨rfl, ?_⟩
        intro h
        simp at h
      | false =>
        simp only [Bool.false_eq_true, if_neg] at hresp
        cases hresp
        exact ⟨rfl, fun _ => ⟨rfl, rfl⟩⟩

/-- Witness for C6 at concrete inputs: a non-upgrade /logs request with a
valid level gets the chunked JSON framing with the application/json
Content-Type. -/
theorem stream_mode_negotiation_witness :
    (trafficHandler false [((3, 4), true)]).contentType =
        some "application/json" ∧
    getLogsHandler false "info" [] =
      .ok (⟨.chunkedJSON, some "application/json", true, []⟩ :
        StreamResponse LogJSON) ∧
    ((⟨.chunkedJSON, some "application/json", true, []⟩ :
        StreamResponse LogJSON)).mode = StreamMode.chunkedJSON := by
  have h := stream_mode_negotiation false [((3, 4), true)] "info" []
  exact ⟨(h.2.1 (by rfl)).1, rfl, rfl⟩

/-- The route package's mutable state touched by `Start`: the recorded
server address and secret (part_000 lines 24-27), plus a count of servers
started (router built and served), standing in for the serving router. -/
structure RouteState where
  serverAddr : String
  serverSecret : String
  serversStarted : Nat
  deriving DecidableEq, Repr

/-- Whether a character list contains the substring "://". -/
def containsSchemeSepChars : List Char → Bool
  | ':' :: '/' :: '/' :: _ => true
  | _ :: rest => containsSchemeSepChars rest
  | [] => false

/-- `strings.Contains(addr, "://")` as used by `Start` (part_000
line 81). -/
def containsSchemeSep (s : String) : Bool :=
  containsSchemeSepChars s.data

/-- The `Start` function (part_000 lines 46-98) as a state transition.
`listenOk` tells whether `net.Listen` succeeds on the plain-address path
and `boundAddr` is the listener's actual address (`l.Addr().String()`);
both are inputs from the environment.  A call with a scheme-style address
serves through `wtf.Serve`; a plain address listens on TCP and rewrites
`serverAddr` to the bound address.  If an address was already recorded,
`Start` returns immediately, touching nothing. -/
def Start (st : RouteState) (addr secret : String)
    (listenOk : Bool) (boundAddr : String) : RouteState :=
  if st.serverAddr ≠ "" then st
  else
    let st1 : RouteState :=
      { serverAddr := addr, serverSecret := secret,
        serversStarted := st.serversStarted }
    if containsSchemeSep addr then
      { st1 with serversStarted := st1.serversStarted + 1 }
    else if listenOk then
      { st1 with serverAddr := boundAddr, serversStarted := st1.serversStarted + 1 }
    else st1

/-- C8: once a server address has been recorded, any later call to `Start`
— with any address, secret, and environment outcome — returns immediately:
the state, including the recorded address, the secret, and the number of
servers started, is unchanged. -/
theorem Start_idempotent_after_record (st : RouteState)
    (h : st.serverAddr ≠ "") (addr secret : String)
    (listenOk : Bool) (boundAddr : String) :
    Start st addr secret listenOk boundAddr = st := by
  unfold Start
  rw [if_pos h]

/-- Witness for C8 at a concrete input: with address "127.0.0.1:9090"
recorded, a second Start with different arguments changes nothing. -/
theorem Start_idempotent_after_record_witness :
    (⟨"127.0.0.1:9090", "s", 1⟩ : RouteState).serverAddr ≠ "" ∧
    Start ⟨"127.0.0.1:9090", "s", 1⟩ "0.0.0.0:8080" "t" true "1.2.3.4:5" =
      ⟨"127.0.0.1:9090", "s", 1⟩ :=
  ⟨by decide,
    Start_idempotent_after_record ⟨"127.0.0.1:9090", "s", 1⟩ (by decide)
      "0.0.0.0:8080" "t" true "1.2.3.4:5"⟩

/-- The two network families of a connection's metadata. -/
inductive Network
  | TCP
  | UDP
  deriving DecidableEq, Repr

/-- The inbound kinds (`C.Type` in the Go source). -/
inductive InboundKind
  | HTTP
  | SOCKS4
  | SOCKS5
  | REDIR
  | TPROXY
  | TUN
  deriving DecidableEq, Repr

/-- A connection's metadata.  The Go struct's `NetWork` and `Type` fields
start at their zero values before the inbound constructor assigns them;
they are rendered as options, `none` meaning not yet assigned (`Type` is
reserved in Lean, so the field is `inboundType`).  String fields default
to empty as in Go. -/
structure Metadata where
  NetWork : Option Network := none
  inboundType : Option InboundKind := none
  SrcIP : String := ""
  SrcPort : String := ""
  DstHost : String := ""
  DstIP : String := ""
  DstPort : String := ""
  deriving DecidableEq, Repr

/-- A SOCKS-format target address: either (host, port) or (ip, port), as
the spec's inbound boundary contract states. -/
inductive SocksAddr
  | domainPort (host : String) (port : String)
  | ipPort (ip : String) (port : String)
  deriving DecidableEq, Repr

/-- Modelled from the spec: `parseSocksAddr` (adapter/inbound util, not in
src) turns the SOCKS-format target into destination metadata: a (host,
port) target fills `dst_host`, an (ip, port) target fills `dst_ip`, and
`dst_port` is always set; all other fields stay at their defaults. -/
def parseSocksAddr : SocksAddr → Metadata
  | .domainPort host port => { DstHost := host, DstPort := port }
  | .ipPort ip port => { DstIP := ip, DstPort := port }

/-- Split a character list at its last colon: the parts before and after
that colon, or none when no colon occurs. -/
def splitLastColon : List Char → Option (List Char × List Char)
  | [] => none
  | c :: cs =>
      match splitLastColon cs with
      | some (b, a) => some (c :: b, a)
      | none => if c = ':' then some ([], cs) else none

/-- Modelled from the spec: `parseAddr` (adapter/inbound util, not in src)
splits a source address string of the form "ip:port" into its IP and port
parts at the last colon and fails when the string has no colon. -/
def parseAddr (s : String) : Option (String × String) :=
  match splitLastColon s.data with
  | some (b, a) => some (⟨b⟩, ⟨a⟩)
  | none => none

/-- Modelled from the spec: `context.NewConnContext` (context package, not
in src) pairs the accepted connection (an opaque handle here) with its
metadata; it is total and never yields a nil context. -/
structure ConnContext where
  conn : Nat
  metadata : Metadata
  deriving DecidableEq, Repr

def NewConnContext (conn : Nat) (metadata : Metadata) : ConnContext :=
  ⟨conn, metadata⟩

/-- `NewHTTP` (adapter/inbound/http.go lines 12-21): metadata from the
SOCKS-format target, network TCP, kind HTTP, source fields filled only
when the source address parses, then wrapped by `NewConnContext`. -/
def NewHTTP (target : SocksAddr) (source : String) (conn : Nat) :
    ConnContext :=
  let m0 := parseSocksAddr target
  let m1 := { m0 with NetWork := some .TCP, inboundType := some .HTTP }
  let m2 := match parseAddr source with
    | some (ip, port) => { m1 with SrcIP := ip, SrcPort := port }
    | none => m1
  NewConnContext conn m2

/-- `NewSocket` (adapter/inbound/socket.go lines 12-22): as `NewHTTP` but
the inbound kind is the supplied source type and the source address is the
connection's remote address. -/
def NewSocket (target : SocksAddr) (conn : Nat) (remoteAddr : String)
    (source : InboundKind) : ConnContext :=
  let m0 := parseSocksAddr target
  let m1 := { m0 with NetWork := some .TCP, inboundType := some source }
  let m2 := match parseAddr remoteAddr with
    | some (ip, port) => { m1 with SrcIP := ip, SrcPort := port }
    | none => m1
  NewConnContext conn m2

/-- C7: both inbound constructors produce metadata with network TCP, the
destination taken from the parsed SOCKS-format target, and the inbound
kind HTTP for `NewHTTP` and the supplied source type for `NewSocket`;
when the source address parses, `src_ip` and `src_port` are taken from
it. -/
theorem inbound_metadata_fields (target : SocksAddr) (source : String)
    (conn : Nat) (remoteAddr : String) (kind : InboundKind) :
    ((NewHTTP target source conn).metadata.NetWork = some Network.TCP ∧
     (NewHTTP target source conn).metadata.inboundType =
       some InboundKind.HTTP ∧
     (NewHTTP target source conn).metadata.DstHost =
       (parseSocksAddr target).DstHost ∧
     (NewHTTP target source conn).metadata.DstIP =
       (parseSocksAddr target).DstIP ∧
     (NewHTTP target source conn).metadata.DstPort =
       (parseSocksAddr target).DstPort ∧
     (∀ ip port, parseAddr source = some (ip, port) →
       (NewHTTP target source conn).metadata.SrcIP = ip ∧
       (NewHTTP target source conn).metadata.SrcPort = port)) ∧
    ((NewSocket target conn remoteAddr kind).metadata.NetWork =
       some Network.TCP ∧
     (NewSocket target conn remoteAddr kind).metadata.inboundType =
       some kind ∧
     (NewSocket target conn remoteAddr kind).metadata.DstHost =
       (parseSocksAddr target).DstHost ∧
     (NewSocket target conn remoteAddr kind).metadata.DstIP =
       (parseSocksAddr target).DstIP ∧
     (NewSocket target conn remoteAddr kind).metadata.DstPort =
       (parseSocksAddr target).DstPort ∧
     (∀ ip port, parseAddr remoteAddr = some (ip, port) →
       (NewSocket target conn remoteAddr kind).metadata.SrcIP = ip ∧
       (NewSocket target conn remoteAddr kind).metadata.SrcPort = port)) := by
  constructor
  · cases hp : parseAddr source with
    | none =>
      refine ⟨?_, ?_, ?_, ?_, ?_, ?_⟩ <;>
        simp [NewHTTP, NewConnContext, hp]
    | some pr =>
      obtain ⟨ip0, port0⟩ := pr
      refine ⟨?_, ?_, ?_, ?_, ?_, ?_⟩ <;>
        simp [NewHTTP, NewConnContext, hp]
  · cases hp : parseAddr remoteAddr with
    | none =>
      refine ⟨?_, ?_, ?_, ?_, ?_, ?_⟩ <;>
        simp [NewSocket, NewConnContext, hp]
    | some pr =>
      obtain ⟨ip0, port0⟩ := pr
      refine ⟨?_, ?_, ?_, ?_, ?_, ?_⟩ <;>
        simp [NewSocket, NewConnContext, hp]

/-- Witness for C7 at concrete inputs: a target host example.com:443 and a
parsing source 1.2.3.4:80 yield TCP/HTTP metadata with those src
fields. -/
theorem inbound_metadata_fields_witness :
    (NewHTTP (.domainPort "example.com" "443") "1.2.3.4:80" 7).metadata.SrcIP
        = "1.2.3.4" ∧
    (NewHTTP (.domainPort "example.com" "443") "1.2.3.4:80"
        7).metadata.SrcPort = "80" ∧
    (NewSocket (.domainPort "example.com" "443") 7 "1.2.3.4:80"
        .SOCKS5).metadata.inboundType = some InboundKind.SOCKS5 := by
  have h := inbound_metadata_fields (.domainPort "example.com" "443")
    "1.2.3.4:80" 7 "1.2.3.4:80" .SOCKS5
  obtain ⟨hs, hp⟩ := (h.1.2.2.2.2.2 "1.2.3.4" "80" rfl)
  exact ⟨hs, hp, h.2.2.1⟩

/-- C9: the inbound constructors are total: they always return a
connection context built by `NewConnContext`; when the source address
fails to parse, the error is discarded, `src_ip` and `src_port` stay
empty, and the remaining metadata fields are still populated. -/
theorem inbound_total_on_parse_failure (target : SocksAddr)
    (source : String) (conn : Nat) (remoteAddr : String)
    (kind : InboundKind) (hs : parseAddr source = none)
    (hr : parseAddr remoteAddr = none) :
    NewHTTP target source conn =
      NewConnContext conn { parseSocksAddr target with
        NetWork := some .TCP, inboundType := some .HTTP } ∧
    (NewHTTP target source conn).metadata.SrcIP = "" ∧
    (NewHTTP target source conn).metadata.SrcPort = "" ∧
    NewSocket target conn remoteAddr kind =
      NewConnContext conn { parseSocksAddr target with
        NetWork := some .TCP, inboundType := some kind } ∧
    (NewSocket target conn remoteAddr kind).metadata.SrcIP = "" ∧
    (NewSocket target conn remoteAddr kind).metadata.SrcPort = "" := by
  refine ⟨?_, ?_, ?_, ?_, ?_, ?_⟩ <;>
    cases target <;>
      simp [NewHTTP, NewSocket, NewConnContext, parseSocksAddr, hs, hr]

/-- Witness for C9 at a concrete input: a source string without a colon
does not parse, and both constructors still return a full context with
empty src fields. -/
theorem inbound_total_on_parse_failure_witness :
    parseAddr "nocolon" = none ∧
    (NewHTTP (.ipPort "9.9.9.9" "53") "nocolon" 3).metadata.SrcIP = "" ∧
    (NewSocket (.ipPort "9.9.9.9" "53") 3 "nocolon"
      .REDIR).metadata.DstIP = "9.9.9.9" := by
  have h := inbound_total_on_parse_failure (.ipPort "9.9.9.9" "53")
    "nocolon" 3 "nocolon" .REDIR rfl rfl
  refine ⟨rfl, h.2.1, ?_⟩
  rw [h.2.2.2.1]
  rfl

end Dash
